import Mathlib

/-!
Verification of the fife-rpg registry and character-statistics system.

Shallow embedding of:
  * `fife_rpg/systems/character_statistics.py` — the point-buy cost curve
    `get_stat_cost`, the statistic catalogs, the per-entity read/modify
    operations, and the per-step recomputation of secondary statistics;
  * `fife_rpg/components/base.py` and `fife_rpg/systems/base.py` — the
    name-registration classmethods of the component and system base classes.

Python dictionaries are embedded as insertion-ordered association lists,
Python ints as `Int`, and Python numeric values (ints and floats mixed in the
statistic computations) as exact rationals `Rat`.  Raised-and-propagated
exceptions become `Except` errors; an exception that the source constructs
but never raises (the `NoSuchStatisticError` branch of
`get_statistic_value`) is embedded as the value the function actually
returns there (Python's implicit `None`).
-/

namespace FifeRpg

/-- Association-list lookup; models Python `dict[key]` / `key in dict`
on an insertion-ordered dictionary. -/
def alookup {κ α : Type} [DecidableEq κ] (k : κ) : List (κ × α) → Option α
  | [] => none
  | (k', v) :: rest => if k' = k then some v else alookup k rest

/-- Association-list update; models Python `dict[key] = value`
(overwrite in place, or append at the end when the key is new). -/
def upsert {κ α : Type} [DecidableEq κ] (k : κ) (v : α) :
    List (κ × α) → List (κ × α)
  | [] => [(k, v)]
  | (k', v') :: rest =>
      if k' = k then (k, v) :: rest else (k', v') :: upsert k v rest

theorem alookup_upsert_self {κ α : Type} [DecidableEq κ] (k : κ) (v : α)
    (l : List (κ × α)) : alookup k (upsert k v l) = some v := by
  induction l with
  | nil => simp [alookup, upsert]
  | cons p rest ih =>
      obtain ⟨k', v'⟩ := p
      by_cases h : k' = k <;> simp [alookup, upsert, h, ih]

theorem alookup_upsert_ne {κ α : Type} [DecidableEq κ] {k k' : κ} (v : α)
    (l : List (κ × α)) (h : k ≠ k') :
    alookup k' (upsert k v l) = alookup k' l := by
  induction l with
  | nil => simp [alookup, upsert, h]
  | cons p rest ih =>
      obtain ⟨k₀, v₀⟩ := p
      by_cases h0 : k₀ = k
      · subst h0
        simp [alookup, upsert, h]
      · by_cases h1 : k₀ = k'
        · subst h1
          simp [alookup, upsert, h0, Ne.symm h]
        · simp [alookup, upsert, h0, h1, ih]

/-- `get_stat_cost` from `fife_rpg/systems/character_statistics.py`
(lines 32–57): the point-buy cost for pushing a primary statistic to an
offset from the default value.  The source first replaces a negative
offset by its negation (`offset *= -1`) and then walks an
`if/elif` chain of upper bounds. -/
def get_stat_cost (offset : Int) : Int :=
  let o := if offset < 0 then offset * -1 else offset
  if o < 22 then 1
  else if o < 29 then 2
  else if o < 32 then 3
  else if o < 35 then 4
  else if o < 36 then 5
  else if o < 38 then 6
  else if o < 39 then 7
  else if o < 40 then 8
  else if o < 41 then 9
  else 10

/-- The step table of spec §4.2, written from the spec's words
(a function of the absolute offset) to be compared with the source's
`get_stat_cost`. -/
def stat_cost_spec (a : Nat) : Int :=
  if a < 22 then 1
  else if a < 29 then 2
  else if a < 32 then 3
  else if a < 35 then 4
  else if a < 36 then 5
  else if a < 38 then 6
  else if a < 39 then 7
  else if a < 40 then 8
  else if a < 41 then 9
  else 10

theorem stat_cost_spec_sat {a : Nat} (h : 41 ≤ a) : stat_cost_spec a = 10 := by
  unfold stat_cost_spec
  split_ifs <;> omega

theorem stat_cost_spec_le_ten (a : Nat) : stat_cost_spec a ≤ 10 := by
  unfold stat_cost_spec
  split_ifs <;> omega

theorem stat_cost_spec_bounded_mono :
    ∀ a < 42, ∀ b < 42, a ≤ b → stat_cost_spec a ≤ stat_cost_spec b := by decide

theorem stat_cost_spec_mono {a b : Nat} (h : a ≤ b) :
    stat_cost_spec a ≤ stat_cost_spec b := by
  by_cases hb : b < 42
  · exact stat_cost_spec_bounded_mono a (by omega) b hb h
  · rw [stat_cost_spec_sat (by omega : 41 ≤ b)]
    exact stat_cost_spec_le_ten a

theorem get_stat_cost_eq_spec (o : Int) :
    get_stat_cost o = stat_cost_spec o.natAbs := by
  have h1 : (if o < 0 then o * -1 else o) = (o.natAbs : Int) := by
    split_ifs <;> omega
  simp only [get_stat_cost, stat_cost_spec, h1]
  norm_cast

/-- C1: `get_stat_cost` is sign-independent, monotonically non-decreasing in
the absolute offset, and equals the spec's step table: cost 1 on
`[0,22)`, 2 on `[22,29)`, 3 on `[29,32)`, 4 on `[32,35)`, 5 on `[35,36)`,
6 on `[36,38)`, 7 on `[38,39)`, 8 on `[39,40)`, 9 on `[40,41)`,
and 10 from 41 on (saturating). -/
theorem get_stat_cost_spec_table :
    (∀ o : Int, get_stat_cost o = get_stat_cost (-o)) ∧
    (∀ a b : Int, a.natAbs ≤ b.natAbs → get_stat_cost a ≤ get_stat_cost b) ∧
    (∀ o : Int, get_stat_cost o = stat_cost_spec o.natAbs) := by
  refine ⟨?_, ?_, get_stat_cost_eq_spec⟩
  · intro o
    rw [get_stat_cost_eq_spec, get_stat_cost_eq_spec, Int.natAbs_neg]
  · intro a b h
    rw [get_stat_cost_eq_spec, get_stat_cost_eq_spec]
    exact stat_cost_spec_mono h

/-- Witness for C1 at concrete inputs: the monotonicity part applied at
`-21` and `1000`. -/
theorem get_stat_cost_spec_table_witness :
    (-21 : Int).natAbs ≤ (1000 : Int).natAbs ∧
      get_stat_cost (-21) ≤ get_stat_cost 1000 :=
  ⟨by decide, get_stat_cost_spec_table.2.1 (-21) 1000 (by decide)⟩

/-! ## The character statistic system (`fife_rpg/systems/character_statistics.py`) -/

/-- Class attribute `CharacterStatisticSystem.min_stat_value` (line 155). -/
def min_stat_value : Int := 0

/-- Class attribute `CharacterStatisticSystem.default_stat_value` (line 156). -/
def default_stat_value : Int := 50

/-- Class attribute `CharacterStatisticSystem.max_stat_value` (line 157). -/
def max_stat_value : Int := 100

/-- `Statistic` (lines 97–112): the record stored in the primary catalog. -/
structure Statistic where
  name : String
  view_name : String
  description : String
deriving DecidableEq, Repr

/-- `CalculatedStatistic` (lines 115–131): a `Statistic` together with its
influence mapping (statistic name → numeric weight). -/
structure CalculatedStatistic where
  name : String
  view_name : String
  description : String
  influences : List (String × Rat)
deriving DecidableEq, Repr

/-- Modelled from the spec: the per-entity state held in the
`CharacterStatistics` component (spec §3 — the component class file
`fife_rpg/components/character_statistics.py` is not under `src/`):
`primary_stats: mapping name→integer value`, `secondary_stats: mapping
name→numeric value`, `stat_points: integer budget`. -/
structure CharacterStatistics where
  primary_stats : List (String × Int)
  secondary_stats : List (String × Rat)
  stat_points : Int
deriving DecidableEq, Repr

/-- An entity as the statistic system sees it: it either carries
CharacterStatistics component data or it does not
(`getattr(entity, CharacterStatistics.registered_as)` truthy or not). -/
structure RPGEntity where
  char_stats : Option CharacterStatistics
deriving DecidableEq, Repr

/-- The exceptions the statistic operations can propagate to the caller:
`NoStatisticComponentError` (lines 78–94), Python's built-in `KeyError`
(raised by direct `primary_stats[statistic]` indexing), and Python's
built-in `TypeError` (raised when `step` multiplies the `None` returned by
`get_statistic_value` for an unknown influence name).  `NoSuchStatisticError`
never appears here because the source constructs it without raising it. -/
inductive StatErr where
  | noStatisticComponent
  | keyError
  | typeError
deriving DecidableEq, Repr

/-- The catalog state of `CharacterStatisticSystem` (lines 172–175):
`primary_statistics` and `secondary_statistics`, insertion-ordered dicts. -/
structure CharacterStatisticSystem where
  primary_statistics : List (String × Statistic)
  secondary_statistics : List (String × CalculatedStatistic)
deriving DecidableEq, Repr

/-- `CharacterStatisticSystem.get_statistic_value` (lines 234–260).
A primary or secondary catalog name reads the per-entity dict, with a
missing key defaulting to 0 (`except KeyError: return 0`); a name in
neither catalog takes the final `else` branch, which builds
`NoSuchStatisticError(statistic)` without raising it and implicitly
returns Python `None` — embedded as `.ok none`.  The string-identifier
branch (`self.world.get_entity`) resolves through the external entity
store and is not modelled; callers here pass the entity itself. -/
def get_statistic_value (sys : CharacterStatisticSystem) (entity : RPGEntity)
    (statistic : String) : Except StatErr (Option Rat) :=
  match entity.char_stats with
  | none => .error .noStatisticComponent
  | some stats =>
      if (alookup statistic sys.primary_statistics).isSome then
        .ok (some ((alookup statistic stats.primary_stats).getD 0 : Int))
      else if (alookup statistic sys.secondary_statistics).isSome then
        .ok (some ((alookup statistic stats.secondary_stats).getD 0))
      else
        .ok none

/-- `CharacterStatisticSystem.get_statistic_points` (lines 323–335). -/
def get_statistic_points (entity : RPGEntity) : Except StatErr Int :=
  match entity.char_stats with
  | none => .error .noStatisticComponent
  | some stats => .ok stats.stat_points

/-- `CharacterStatisticSystem.get_statistic_increase_cost` (lines 337–354):
`cur_value = char_stats.primary_stats[statistic]` is a direct dict index
(KeyError when the key is absent), then
`get_stat_cost(cur_value + 1 - default_stat_value)`. -/
def get_statistic_increase_cost (entity : RPGEntity) (statistic : String) :
    Except StatErr Int :=
  match entity.char_stats with
  | none => .error .noStatisticComponent
  | some stats =>
      match alookup statistic stats.primary_stats with
      | none => .error .keyError
      | some cur_value => .ok (get_stat_cost (cur_value + 1 - default_stat_value))

/-- `CharacterStatisticSystem.get_statistic_decrease_gain` (lines 356–373):
same direct dict index, then `get_stat_cost(cur_value - 1 - default_stat_value)`. -/
def get_statistic_decrease_gain (entity : RPGEntity) (statistic : String) :
    Except StatErr Int :=
  match entity.char_stats with
  | none => .error .noStatisticComponent
  | some stats =>
      match alookup statistic stats.primary_stats with
      | none => .error .keyError
      | some cur_value => .ok (get_stat_cost (cur_value - 1 - default_stat_value))

/-- `CharacterStatisticSystem.can_increase_statistic` (lines 375–393).
Only primary-catalog names pass the first gate; then the current value must
be below `max_stat_value` and the increase cost within `stat_points`.
(The `.ok none` return of `get_statistic_value` cannot occur here because
the catalog gate already passed; Python would raise a `TypeError` comparing
`None < int`.) -/
def can_increase_statistic (sys : CharacterStatisticSystem)
    (entity : RPGEntity) (statistic : String) : Except StatErr Bool :=
  if (alookup statistic sys.primary_statistics).isNone then .ok false
  else
    match get_statistic_value sys entity statistic with
    | .error e => .error e
    | .ok none => .error .typeError
    | .ok (some value) =>
        if value < (max_stat_value : Rat) then
          match get_statistic_increase_cost entity statistic with
          | .error e => .error e
          | .ok cost =>
              match get_statistic_points entity with
              | .error e => .error e
              | .ok points => .ok (decide (cost ≤ points))
        else .ok false

/-- `CharacterStatisticSystem.can_decrease_statistic` (lines 395–410). -/
def can_decrease_statistic (sys : CharacterStatisticSystem)
    (entity : RPGEntity) (statistic : String) : Except StatErr Bool :=
  if (alookup statistic sys.primary_statistics).isNone then .ok false
  else
    match get_statistic_value sys entity statistic with
    | .error e => .error e
    | .ok none => .error .typeError
    | .ok (some value) => .ok (decide ((min_stat_value : Rat) < value))

/-- `CharacterStatisticSystem.increase_statistic` (lines 412–430):
return unchanged when `can_increase_statistic` fails, otherwise add 1 to the
primary value and subtract the increase cost from `stat_points`. -/
def increase_statistic (sys : CharacterStatisticSystem)
    (entity : RPGEntity) (statistic : String) : Except StatErr RPGEntity :=
  match can_increase_statistic sys entity statistic with
  | .error e => .error e
  | .ok false => .ok entity
  | .ok true =>
      match entity.char_stats with
      | none => .error .noStatisticComponent
      | some stats =>
          match get_statistic_increase_cost entity statistic with
          | .error e => .error e
          | .ok cost =>
              match alookup statistic stats.primary_stats with
              | none => .error .keyError
              | some cur_value =>
                  .ok ⟨some
                    { stats with
                      primary_stats :=
                        upsert statistic (cur_value + 1) stats.primary_stats
                      stat_points := stats.stat_points - cost }⟩

/-- `CharacterStatisticSystem.decrease_statistic` (lines 432–450):
return unchanged when `can_decrease_statistic` fails; otherwise the refund
is `gain = self.get_statistic_increase_cost(entity, statistic)` — the
source calls the *increase* cost here, not `get_statistic_decrease_gain` —
then the primary value drops by 1 and `stat_points` grows by that gain. -/
def decrease_statistic (sys : CharacterStatisticSystem)
    (entity : RPGEntity) (statistic : String) : Except StatErr RPGEntity :=
  match can_decrease_statistic sys entity statistic with
  | .error e => .error e
  | .ok false => .ok entity
  | .ok true =>
      match entity.char_stats with
      | none => .error .noStatisticComponent
      | some stats =>
          match get_statistic_increase_cost entity statistic with
          | .error e => .error e
          | .ok gain =>
              match alookup statistic stats.primary_stats with
              | none => .error .keyError
              | some cur_value =>
                  .ok ⟨some
                    { stats with
                      primary_stats :=
                        upsert statistic (cur_value - 1) stats.primary_stats
                      stat_points := stats.stat_points + gain }⟩

/-- The inner accumulation loop of `step` (lines 466–469):
`total = 0; for name, influence in statistic.influences.items():
total += self.get_statistic_value(entity, name) * influence`.
An influence name in neither catalog makes `get_statistic_value` return
`None` and the multiplication raise `TypeError`. -/
def step_influence_total (sys : CharacterStatisticSystem) (entity : RPGEntity) :
    List (String × Rat) → Rat → Except StatErr Rat
  | [], total => .ok total
  | (name, influence) :: rest, total =>
      match get_statistic_value sys entity name with
      | .error e => .error e
      | .ok none => .error .typeError
      | .ok (some value) =>
          step_influence_total sys entity rest (total + value * influence)

/-- The per-entity loop body of `step` (lines 462–470): walk the secondary
catalog in order, writing each computed total into the entity's
`secondary_stats` dict in place — so a later secondary reading an earlier
one through `get_statistic_value` sees the value written this same step. -/
def step_entity (sys : CharacterStatisticSystem) :
    List (String × CalculatedStatistic) → RPGEntity → Except StatErr RPGEntity
  | [], entity => .ok entity
  | (statistic_name, statistic) :: rest, entity =>
      match step_influence_total sys entity statistic.influences 0 with
      | .error e => .error e
      | .ok total =>
          match entity.char_stats with
          | none => .error .noStatisticComponent
          | some stats =>
              step_entity sys rest ⟨some
                { stats with
                  secondary_stats :=
                    upsert statistic_name total stats.secondary_stats }⟩

/-- The world traversal of `step` (lines 459–461): the loop runs over the
extent of entities that carry the CharacterStatistics component
(`getattr(self.world[RPGEntity], comp_name)`), so entities without the
component are untouched; each carrier is processed by the per-entity loop
body in order, and a raised exception aborts the traversal. -/
def step_world (sys : CharacterStatisticSystem) :
    List RPGEntity → Except StatErr (List RPGEntity)
  | [] => .ok []
  | entity :: rest =>
      let r : Except StatErr RPGEntity :=
        match entity.char_stats with
        | none => .ok entity
        | some _ => step_entity sys sys.secondary_statistics entity
      match r with
      | .error e => .error e
      | .ok entity' =>
          match step_world sys rest with
          | .error e => .error e
          | .ok rest' => .ok (entity' :: rest')

set_option linter.unusedVariables false in
/-- `CharacterStatisticSystem.step` (lines 452–470).  `time_delta` is
unused by the source (`pylint: disable=W0613`). -/
def step (sys : CharacterStatisticSystem) (world : List RPGEntity)
    (time_delta : Rat) : Except StatErr (List RPGEntity) :=
  step_world sys world

/-! ## The registration bases
(`fife_rpg/components/base.py` and `fife_rpg/systems/base.py`)

Python classes are identified by a numeric type identity.  A component
class carries the filtered ancestor list that the auto-propagation loop
walks (`inspect.getmro(cls)` restricted to strict `Base` subclasses other
than `cls` itself) and its declared dependency list; dependencies are
nested component classes, mirroring that a class object can only list
already-constructed classes, so declared dependency chains are finite. -/

/-- A component class: type identity, the default registration name of its
overridden `register` classmethod, the mro-filtered ancestor identities,
and the declared `dependencies` list. -/
inductive CompClass where
  | mk (id : Nat) (defaultName : String) (ancestors : List Nat)
      (deps : List CompClass)

def CompClass.id : CompClass → Nat
  | .mk i _ _ _ => i

def CompClass.defaultName : CompClass → String
  | .mk _ n _ _ => n

def CompClass.ancestors : CompClass → List Nat
  | .mk _ _ a _ => a

def CompClass.deps : CompClass → List CompClass
  | .mk _ _ _ d => d

/-- The component-side registration state: `compAs` is the per-class
`__registered_as` attribute (keyed by type identity, absent = `None`);
`compBind` is the ComponentManager's name→component binding.
Modelled from the spec: `fife_rpg/components/__init__.py`
(`ComponentManager.register_component`) is not under `src/`; per spec §3
and §4.1 a name maps to at most one active entry and a direct name
collision signals `AlreadyRegisteredError`. -/
structure CompState where
  compAs : List (Nat × String)
  compBind : List (String × Nat)
deriving DecidableEq, Repr

/-- The system-side registration state: per-class `__registered_as` and the
SystemManager's name→system binding (the latter modelled from the spec,
`fife_rpg/systems/__init__.py` being absent from `src/`, with the same
name-uniqueness rule). -/
structure SysState where
  sysAs : List (Nat × String)
  sysBind : List (String × Nat)
deriving DecidableEq, Repr

/-- Python truthiness of a `registered_as` read: `None` and the empty
string are falsy (`if not dependency.registered_as`). -/
def pyFalsy (o : Option String) : Bool := o.getD "" = ""

mutual

/-- `Base.register` of `fife_rpg/components/base.py` (lines 62–92).
Inside the `try`: `ComponentManager.register_component(name, cls())`
raises `AlreadyRegisteredError` when `name` is already bound (caught below:
print and return `False`, state untouched); then `cls.__registered_as =
name`; then, when `auto_register`, every mro ancestor that is a strict
`Base` subclass other than `cls` gets the same `__registered_as`; then
every dependency whose `registered_as` is falsy is registered under its own
default name, its success flag ignored. -/
def compRegister (st : CompState) (c : CompClass) (name : String)
    (auto_register : Bool) : Bool × CompState :=
  match c with
  | .mk cid _dn ancs deps =>
      if (alookup name st.compBind).isSome then (false, st)
      else
        let st1 : CompState :=
          { compAs := upsert cid name st.compAs
            compBind := upsert name cid st.compBind }
        let st2 : CompState :=
          if auto_register then
            { st1 with
              compAs := ancs.foldl (fun m a => upsert a name m) st1.compAs }
          else st1
        (true, compRegisterDeps st2 deps)

/-- The dependency loop of `Base.register` (lines 86–88):
`for dependency in cls.dependencies: if not dependency.registered_as:
dependency.register()`. -/
def compRegisterDeps (st : CompState) : List CompClass → CompState
  | [] => st
  | d :: rest =>
      let st' :=
        if pyFalsy (alookup d.id st.compAs) then
          (compRegister st d d.defaultName true).2
        else st
      compRegisterDeps st' rest

end

/-- A system class: type identity, default registration name, mro-filtered
ancestor identities, and its declared dependency list — in the source the
one system in `src/` (`CharacterStatisticSystem`) depends on component
classes, so dependencies here are `CompClass`es. -/
structure SysClass where
  id : Nat
  defaultName : String
  ancestors : List Nat
  deps : List CompClass

/-- `Base.register` of `fife_rpg/systems/base.py` (lines 51–72).
Inside the `try`: first the dependency loop (each unregistered dependency
registered under its default name via the component `register`), then
`SystemManager.register_system(name, cls())` — raising
`AlreadyRegisteredError` when `name` is already bound, caught as a `False`
return with the dependency side effects kept — then
`cls.__registered_as = name`.  There is no ancestor propagation loop. -/
def sysRegister (cst : CompState) (sst : SysState) (c : SysClass)
    (name : String) : Bool × CompState × SysState :=
  let cst1 := compRegisterDeps cst c.deps
  if (alookup name sst.sysBind).isSome then (false, cst1, sst)
  else
    (true, cst1,
      { sysAs := upsert c.id name sst.sysAs
        sysBind := upsert name c.id sst.sysBind })

/-! ## Theorems about the statistic system -/

/-- C10: the secondary-statistic values produced by `step` are independent
of the `time_delta` argument — from identical system and world state, any
two `time_delta` values yield identical results. -/
theorem step_independent_of_time_delta (sys : CharacterStatisticSystem)
    (world : List RPGEntity) (t1 t2 : Rat) :
    step sys world t1 = step sys world t2 := rfl

/-- C7: `get_statistic_value` on a name in neither catalog does not raise
to the caller (the `NoSuchStatisticError` is constructed but discarded and
the call returns Python `None`), while calling it on an entity whose
CharacterStatistics component data is absent raises
`NoStatisticComponentError`. -/
theorem get_statistic_value_unknown_name_vs_missing_component
    (sys : CharacterStatisticSystem) (entity : RPGEntity) (statistic : String)
    (h1 : alookup statistic sys.primary_statistics = none)
    (h2 : alookup statistic sys.secondary_statistics = none) :
    (∀ stats, entity.char_stats = some stats →
        get_statistic_value sys entity statistic = .ok none) ∧
    (entity.char_stats = none →
        get_statistic_value sys entity statistic =
          .error .noStatisticComponent) := by
  constructor
  · intro stats hc
    simp [get_statistic_value, hc, h1, h2]
  · intro hc
    simp [get_statistic_value, hc]

/-- Witness for C7: a catalog with one primary statistic, queried for the
unknown name `"luck"` on an entity with component data and on one without. -/
theorem get_statistic_value_unknown_name_vs_missing_component_witness :
    (get_statistic_value ⟨[("strength", ⟨"strength", "Strength", ""⟩)], []⟩
        ⟨some ⟨[("strength", 30)], [], 0⟩⟩ "luck" = .ok none) ∧
    (get_statistic_value ⟨[("strength", ⟨"strength", "Strength", ""⟩)], []⟩
        ⟨none⟩ "luck" = .error .noStatisticComponent) :=
  ⟨(get_statistic_value_unknown_name_vs_missing_component
      ⟨[("strength", ⟨"strength", "Strength", ""⟩)], []⟩
      ⟨some ⟨[("strength", 30)], [], 0⟩⟩ "luck" (by decide) (by decide)).1
      ⟨[("strength", 30)], [], 0⟩ rfl,
   (get_statistic_value_unknown_name_vs_missing_component
      ⟨[("strength", ⟨"strength", "Strength", ""⟩)], []⟩
      ⟨none⟩ "luck" (by decide) (by decide)).2 rfl⟩

/-- Catalog fixture for C3: one primary statistic, no secondaries. -/
def sysC3 : CharacterStatisticSystem :=
  ⟨[("strength", ⟨"strength", "Strength", ""⟩)], []⟩

/-- Entity fixture for C3: strength 71 (offset 21 above the default 50),
no banked points. -/
def entC3 : RPGEntity := ⟨some ⟨[("strength", 71)], [], 0⟩⟩

/-- C3 (code bug, at the failing input): `get_statistic_decrease_gain`
evaluates the cost curve on the decremented value
(`get_stat_cost(70 - 50) = 1`), but `decrease_statistic` refunds
`gain = self.get_statistic_increase_cost(...)` — the cost curve on the
incremented value, `get_stat_cost(72 - 50) = 2` — so decreasing strength
from 71 adds back 2 points where the claim says 1. -/
theorem decrease_statistic_refunds_increase_cost :
    decrease_statistic sysC3 entC3 "strength" =
        .ok ⟨some ⟨[("strength", 70)], [], 2⟩⟩ ∧
    get_statistic_decrease_gain entC3 "strength" = .ok 1 ∧
    get_statistic_increase_cost entC3 "strength" = .ok 2 :=
  ⟨rfl, rfl, rfl⟩

/-- Catalog fixture for C6: one primary statistic in the catalog. -/
def sysC6 : CharacterStatisticSystem :=
  ⟨[("strength", ⟨"strength", "Strength", ""⟩)], []⟩

/-- Entity fixture for C6: carries the component, but its per-entity
`primary_stats` dict has no `"strength"` key. -/
def entC6 : RPGEntity := ⟨some ⟨[], [], 0⟩⟩

/-- C6 counterexample: for an entity carrying the component and a name in
the primary catalog but absent from the entity's `primary_stats`,
`get_statistic_increase_cost` raises `KeyError` instead of reading the
value as 0 — refuting the claim that every listed read operation treats a
missing per-entity key as 0 and never errors. -/
theorem missing_key_counterexample :
    (alookup "strength" sysC6.primary_statistics).isSome = true ∧
    entC6.char_stats ≠ none ∧
    get_statistic_increase_cost entC6 "strength" = .error .keyError :=
  ⟨by decide, by decide, rfl⟩

/-- C6 as amended: with the component present, the statistic in the primary
catalog, and the per-entity key absent, `get_statistic_value` reads the
value as 0 and `decrease_statistic` is an error-free no-op (0 is not above
`min_stat_value`), but `get_statistic_increase_cost`,
`get_statistic_decrease_gain`, `can_increase_statistic` and
`increase_statistic` raise `KeyError` through the direct
`primary_stats[statistic]` index. -/
theorem missing_key_behavior (sys : CharacterStatisticSystem)
    (stats : CharacterStatistics) (statistic : String)
    (hp : (alookup statistic sys.primary_statistics).isSome = true)
    (hk : alookup statistic stats.primary_stats = none) :
    get_statistic_value sys ⟨some stats⟩ statistic = .ok (some 0) ∧
    get_statistic_increase_cost ⟨some stats⟩ statistic = .error .keyError ∧
    get_statistic_decrease_gain ⟨some stats⟩ statistic = .error .keyError ∧
    can_increase_statistic sys ⟨some stats⟩ statistic = .error .keyError ∧
    increase_statistic sys ⟨some stats⟩ statistic = .error .keyError ∧
    can_decrease_statistic sys ⟨some stats⟩ statistic = .ok false ∧
    decrease_statistic sys ⟨some stats⟩ statistic = .ok ⟨some stats⟩ := by
  have hval : get_statistic_value sys ⟨some stats⟩ statistic = .ok (some 0) := by
    simp [get_statistic_value, hp, hk]
  have hcost : get_statistic_increase_cost ⟨some stats⟩ statistic =
      .error .keyError := by
    simp [get_statistic_increase_cost, hk]
  have hgain : get_statistic_decrease_gain ⟨some stats⟩ statistic =
      .error .keyError := by
    simp [get_statistic_decrease_gain, hk]
  have hnone : (alookup statistic sys.primary_statistics).isNone = false := by
    obtain ⟨v, hv⟩ := Option.isSome_iff_exists.mp hp
    simp [hv]
  have hcan : can_increase_statistic sys ⟨some stats⟩ statistic =
      .error .keyError := by
    rw [can_increase_statistic, hnone]
    simp only [Bool.false_eq_true, if_false, hval, hcost]
    rw [if_pos]
    unfold max_stat_value
    norm_num
  have hcand : can_decrease_statistic sys ⟨some stats⟩ statistic = .ok false := by
    rw [can_decrease_statistic, hnone]
    simp only [Bool.false_eq_true, if_false, hval]
    unfold min_stat_value
    norm_num
  refine ⟨hval, hcost, hgain, hcan, ?_, hcand, ?_⟩
  · rw [increase_statistic, hcan]
  · rw [decrease_statistic, hcand]

/-- Witness for C6's amended theorem at the C6 fixtures. -/
theorem missing_key_behavior_witness :
    get_statistic_value sysC6 ⟨some ⟨[], [], 0⟩⟩ "strength" = .ok (some 0) ∧
    get_statistic_increase_cost ⟨some ⟨[], [], 0⟩⟩ "strength" =
      .error .keyError ∧
    get_statistic_decrease_gain ⟨some ⟨[], [], 0⟩⟩ "strength" =
      .error .keyError ∧
    can_increase_statistic sysC6 ⟨some ⟨[], [], 0⟩⟩ "strength" =
      .error .keyError ∧
    increase_statistic sysC6 ⟨some ⟨[], [], 0⟩⟩ "strength" =
      .error .keyError ∧
    can_decrease_statistic sysC6 ⟨some ⟨[], [], 0⟩⟩ "strength" = .ok false ∧
    decrease_statistic sysC6 ⟨some ⟨[], [], 0⟩⟩ "strength" =
      .ok ⟨some ⟨[], [], 0⟩⟩ :=
  missing_key_behavior sysC6 ⟨[], [], 0⟩ "strength" (by decide) (by decide)

/-- C4: for an entity whose primary statistic sits at `default_stat_value`
with `stat_points = 1`: `can_increase_statistic` is true;
`increase_statistic` raises the value by exactly 1 and drops the points to
0; and a second `increase_statistic` call is a no-op returning the entity
unchanged — value and budget change together or not at all. -/
theorem increase_statistic_from_default (sys : CharacterStatisticSystem)
    (stats : CharacterStatistics) (statistic : String)
    (hp : (alookup statistic sys.primary_statistics).isSome = true)
    (hv : alookup statistic stats.primary_stats = some default_stat_value)
    (hpts : stats.stat_points = 1) :
    can_increase_statistic sys ⟨some stats⟩ statistic = .ok true ∧
    increase_statistic sys ⟨some stats⟩ statistic =
      .ok ⟨some { stats with
        primary_stats :=
          upsert statistic (default_stat_value + 1) stats.primary_stats
        stat_points := 0 }⟩ ∧
    increase_statistic sys
      ⟨some { stats with
        primary_stats :=
          upsert statistic (default_stat_value + 1) stats.primary_stats
        stat_points := 0 }⟩ statistic =
      .ok ⟨some { stats with
        primary_stats :=
          upsert statistic (default_stat_value + 1) stats.primary_stats
        stat_points := 0 }⟩ := by
  have hnone : (alookup statistic sys.primary_statistics).isNone = false := by
    obtain ⟨v, hv'⟩ := Option.isSome_iff_exists.mp hp
    simp [hv']
  have hval : get_statistic_value sys ⟨some stats⟩ statistic =
      .ok (some ((default_stat_value : Int) : Rat)) := by
    simp [get_statistic_value, hp, hv]
  have hcost : get_statistic_increase_cost ⟨some stats⟩ statistic = .ok 1 := by
    simp only [get_statistic_increase_cost, hv]
    norm_num [default_stat_value]
    decide
  have hcan : can_increase_statistic sys ⟨some stats⟩ statistic = .ok true := by
    rw [can_increase_statistic, hnone]
    simp only [Bool.false_eq_true, if_false, hval, hcost]
    rw [if_pos (by norm_num [default_stat_value, max_stat_value])]
    simp [get_statistic_points, hpts]
  have hinc : increase_statistic sys ⟨some stats⟩ statistic =
      .ok ⟨some { stats with
        primary_stats :=
          upsert statistic (default_stat_value + 1) stats.primary_stats
        stat_points := 0 }⟩ := by
    rw [increase_statistic, hcan]
    simp only [hcost, hv, hpts]
    norm_num
  refine ⟨hcan, hinc, ?_⟩
  have hv2 : alookup statistic
      (upsert statistic (default_stat_value + 1) stats.primary_stats) =
      some (default_stat_value + 1) := alookup_upsert_self _ _ _
  have hval2 : get_statistic_value sys
      ⟨some { stats with
        primary_stats :=
          upsert statistic (default_stat_value + 1) stats.primary_stats
        stat_points := 0 }⟩ statistic =
      .ok (some ((default_stat_value + 1 : Int) : Rat)) := by
    simp [get_statistic_value, hp, hv2]
  have hcost2 : get_statistic_increase_cost
      ⟨some { stats with
        primary_stats :=
          upsert statistic (default_stat_value + 1) stats.primary_stats
        stat_points := 0 }⟩ statistic = .ok 1 := by
    simp only [get_statistic_increase_cost, hv2]
    norm_num [default_stat_value]
    decide
  have hcan2 : can_increase_statistic sys
      ⟨some { stats with
        primary_stats :=
          upsert statistic (default_stat_value + 1) stats.primary_stats
        stat_points := 0 }⟩ statistic = .ok false := by
    rw [can_increase_statistic, hnone]
    simp only [Bool.false_eq_true, if_false, hval2, hcost2]
    rw [if_pos (by norm_num [default_stat_value, max_stat_value])]
    simp [get_statistic_points]
  rw [increase_statistic, hcan2]

/-- Witness for C4: strength at the default value 50 with one stat point;
the first increase yields 51 and zero points, the second is a no-op. -/
theorem increase_statistic_from_default_witness :
    can_increase_statistic ⟨[("strength", ⟨"strength", "Strength", ""⟩)], []⟩
      ⟨some ⟨[("strength", 50)], [], 1⟩⟩ "strength" = .ok true ∧
    increase_statistic ⟨[("strength", ⟨"strength", "Strength", ""⟩)], []⟩
      ⟨some ⟨[("strength", 50)], [], 1⟩⟩ "strength" =
      .ok ⟨some ⟨upsert "strength" (default_stat_value + 1) [("strength", 50)],
        [], 0⟩⟩ ∧
    increase_statistic ⟨[("strength", ⟨"strength", "Strength", ""⟩)], []⟩
      ⟨some ⟨upsert "strength" (default_stat_value + 1) [("strength", 50)],
        [], 0⟩⟩ "strength" =
      .ok ⟨some ⟨upsert "strength" (default_stat_value + 1) [("strength", 50)],
        [], 0⟩⟩ :=
  increase_statistic_from_default
    ⟨[("strength", ⟨"strength", "Strength", ""⟩)], []⟩
    ⟨[("strength", 50)], [], 1⟩ "strength" (by decide) (by decide) rfl

/-- The recomputation formula of spec §4.2 for one secondary statistic:
`Σ (influence_weight × influenced value)` over the influence mapping, the
influenced values read from the entity's primary mapping with absent keys
as 0 (accumulated left to right as the source loop does). -/
def influence_sum (prim : List (String × Int)) (infs : List (String × Rat)) :
    Rat :=
  infs.foldl
    (fun total p => total + (((alookup p.1 prim).getD 0 : Int) : Rat) * p.2) 0

theorem step_influence_total_primary (sys : CharacterStatisticSystem)
    (stats : CharacterStatistics) (infs : List (String × Rat)) (acc : Rat)
    (h : ∀ p ∈ infs, (alookup p.1 sys.primary_statistics).isSome = true) :
    step_influence_total sys ⟨some stats⟩ infs acc =
      .ok (infs.foldl
        (fun total p =>
          total + (((alookup p.1 stats.primary_stats).getD 0 : Int) : Rat) * p.2)
        acc) := by
  induction infs generalizing acc with
  | nil => simp [step_influence_total]
  | cons p rest ih =>
      obtain ⟨n, w⟩ := p
      have hn : (alookup n sys.primary_statistics).isSome = true :=
        h (n, w) (by simp)
      have hval : get_statistic_value sys ⟨some stats⟩ n =
          .ok (some (((alookup n stats.primary_stats).getD 0 : Int) : Rat)) := by
        simp [get_statistic_value, hn]
      simp only [step_influence_total, hval, List.foldl_cons]
      exact ih _ fun q hq => h q (List.mem_cons_of_mem _ hq)

theorem step_entity_primary (sys : CharacterStatisticSystem)
    (secs : List (String × CalculatedStatistic)) (stats : CharacterStatistics)
    (hinf : ∀ p ∈ secs, ∀ q ∈ p.2.influences,
        (alookup q.1 sys.primary_statistics).isSome = true) :
    ∃ stats', step_entity sys secs ⟨some stats⟩ = .ok ⟨some stats'⟩ ∧
      stats'.primary_stats = stats.primary_stats ∧
      stats'.stat_points = stats.stat_points ∧
      (∀ m, m ∉ secs.map Prod.fst →
          alookup m stats'.secondary_stats = alookup m stats.secondary_stats) ∧
      ((secs.map Prod.fst).Nodup →
        ∀ sname stat, (sname, stat) ∈ secs →
          alookup sname stats'.secondary_stats =
            some (influence_sum stats.primary_stats stat.influences)) := by
  induction secs generalizing stats with
  | nil =>
      exact ⟨stats, rfl, rfl, rfl, fun m _ => rfl,
        fun _ s t ht => absurd ht (List.not_mem_nil _)⟩
  | cons p rest ih =>
      obtain ⟨n0, s0⟩ := p
      have htot : step_influence_total sys ⟨some stats⟩ s0.influences 0 =
          .ok (influence_sum stats.primary_stats s0.influences) :=
        step_influence_total_primary sys stats s0.influences 0
          (hinf (n0, s0) (by simp))
      obtain ⟨stats', h1, h2, h3, h4, h5⟩ :=
        ih { stats with
              secondary_stats :=
                upsert n0 (influence_sum stats.primary_stats s0.influences)
                  stats.secondary_stats }
          (fun q hq => hinf q (List.mem_cons_of_mem _ hq))
      have hstep : step_entity sys ((n0, s0) :: rest) ⟨some stats⟩ =
          .ok ⟨some stats'⟩ := by
        simp only [step_entity, htot]
        exact h1
      refine ⟨stats', hstep, h2, h3, ?_, ?_⟩
      · intro m hm
        have hm0 : m ≠ n0 := by
          intro hmeq
          exact hm (by simp [hmeq])
        have hmr : m ∉ rest.map Prod.fst := by
          intro hin
          exact hm (by simp [hin])
        rw [h4 m hmr]
        exact alookup_upsert_ne _ _ (Ne.symm hm0)
      · intro hnd sname stat hmem
        have hnd' : (rest.map Prod.fst).Nodup := (List.nodup_cons.mp hnd).2
        have hn0r : n0 ∉ rest.map Prod.fst := by
          have := (List.nodup_cons.mp hnd).1
          simpa using this
        rcases List.mem_cons.mp hmem with hhd | htl
        · injection hhd with he1 he2
          subst he1
          subst he2
          rw [h4 sname hn0r]
          exact alookup_upsert_self sname _ _
        · exact h5 hnd' sname stat htl

/-- C2: with every influence of every secondary statistic naming a primary
statistic (the case in which spec §4.2's formula is unambiguous — the spec
leaves cross-secondary order open) and the secondary catalog keys distinct,
`step` succeeds and overwrites, for every entity carrying the component and
every secondary statistic in the catalog, the entity's stored secondary
value with `Σ influence_weight × get_statistic_value(entity, name)` —
the weighted sum of the entity's primary values, absent keys read as 0 —
leaving primary values in place.  In particular influences
`strength ↦ 1/2, agility ↦ 1/2` store `0.5·strength + 0.5·agility`. -/
theorem step_recomputes_secondary_statistics (sys : CharacterStatisticSystem)
    (hinf : ∀ p ∈ sys.secondary_statistics, ∀ q ∈ p.2.influences,
        (alookup q.1 sys.primary_statistics).isSome = true)
    (hnd : (sys.secondary_statistics.map Prod.fst).Nodup) :
    ∀ (world : List RPGEntity) (td : Rat), ∃ world',
      step sys world td = .ok world' ∧
      world'.length = world.length ∧
      ∀ i (hi : i < world.length) (hi' : i < world'.length) stats,
        (world.get ⟨i, hi⟩).char_stats = some stats →
        ∃ stats', (world'.get ⟨i, hi'⟩).char_stats = some stats' ∧
          stats'.primary_stats = stats.primary_stats ∧
          ∀ sname stat, (sname, stat) ∈ sys.secondary_statistics →
            alookup sname stats'.secondary_stats =
              some (influence_sum stats.primary_stats stat.influences) := by
  intro world td
  induction world with
  | nil =>
      exact ⟨[], rfl, rfl, fun i hi => absurd hi (by simp)⟩
  | cons e rest ih =>
      obtain ⟨rest', hr1, hr2, hr3⟩ := ih
      match he : e.char_stats with
      | none =>
          refine ⟨e :: rest', ?_, by simpa using hr2, ?_⟩
          · simp only [step, step_world, he]
            rw [show step_world sys rest = .ok rest' from hr1]
          · intro i hi hi' stats hstats
            match i with
            | 0 => rw [List.get] at hstats; simp [he] at hstats
            | Nat.succ j =>
                exact hr3 j (by simpa using hi) (by simpa using hi') stats hstats
      | some stats0 =>
          obtain ⟨stats', h1, h2, _h3, _h4, h5⟩ :=
            step_entity_primary sys sys.secondary_statistics stats0 hinf
          refine ⟨⟨some stats'⟩ :: rest', ?_, by simpa using hr2, ?_⟩
          · simp only [step, step_world, he]
            rw [show (⟨some stats0⟩ : RPGEntity) = e by cases e; simp_all] at h1
            rw [h1, show step_world sys rest = .ok rest' from hr1]
          · intro i hi hi' stats hstats
            match i with
            | 0 =>
                rw [List.get] at hstats ⊢
                simp only [he] at hstats
                injection hstats with hs
                subst hs
                exact ⟨stats', rfl, h2, h5 hnd⟩
            | Nat.succ j =>
                exact hr3 j (by simpa using hi) (by simpa using hi') stats hstats

/-- Catalog fixture for C2: primaries strength and agility, one secondary
melee influenced half by each. -/
def sysC2 : CharacterStatisticSystem :=
  ⟨[("strength", ⟨"strength", "Strength", ""⟩),
    ("agility", ⟨"agility", "Agility", ""⟩)],
   [("melee", ⟨"melee", "Melee", "",
      [("strength", (1 : Rat) / 2), ("agility", (1 : Rat) / 2)]⟩)]⟩

/-- Witness for C2: one entity with strength 30 and agility 70; `step`
succeeds and stores `0.5·30 + 0.5·70` for melee. -/
theorem step_recomputes_secondary_statistics_witness :
    ∃ world', step sysC2 [⟨some ⟨[("strength", 30), ("agility", 70)], [], 0⟩⟩]
        0 = .ok world' ∧
      world'.length = 1 ∧
      ∀ i (hi : i < (1 : Nat)) (hi' : i < world'.length) stats,
        (([⟨some ⟨[("strength", 30), ("agility", 70)], [], 0⟩⟩] :
            List RPGEntity).get ⟨i, hi⟩).char_stats = some stats →
        ∃ stats', (world'.get ⟨i, hi'⟩).char_stats = some stats' ∧
          stats'.primary_stats = stats.primary_stats ∧
          ∀ sname stat, (sname, stat) ∈ sysC2.secondary_statistics →
            alookup sname stats'.secondary_stats =
              some (influence_sum stats.primary_stats stat.influences) :=
  step_recomputes_secondary_statistics sysC2 (by decide) (by decide)
    [⟨some ⟨[("strength", 30), ("agility", 70)], [], 0⟩⟩] 0

/-! ## Theorems about the registration bases -/

theorem alookup_foldl_upsert {name : String} (l : List Nat)
    (m : List (Nat × String)) (a : Nat)
    (h : a ∈ l ∨ alookup a m = some name) :
    alookup a (l.foldl (fun acc x => upsert x name acc) m) = some name := by
  induction l generalizing m with
  | nil => simpa using h.resolve_left (List.not_mem_nil a)
  | cons x rest ih =>
      simp only [List.foldl_cons]
      apply ih
      rcases h with hmem | hlook
      · rcases List.mem_cons.mp hmem with heq | hr
        · subst heq
          right
          exact alookup_upsert_self _ _ _
        · left
          exact hr
      · right
        by_cases hx : x = a
        · subst hx
          exact alookup_upsert_self _ _ _
        · rw [alookup_upsert_ne _ _ hx]
          exact hlook

theorem alookup_foldl_upsert_not_mem {name : String} (l : List Nat)
    (m : List (Nat × String)) (a : Nat) (h : a ∉ l) :
    alookup a (l.foldl (fun acc x => upsert x name acc) m) = alookup a m := by
  induction l generalizing m with
  | nil => rfl
  | cons x rest ih =>
      simp only [List.foldl_cons]
      rw [ih _ fun hr => h (List.mem_cons_of_mem _ hr)]
      exact alookup_upsert_ne _ _ fun hx => h (hx ▸ List.mem_cons_self x rest)

/-- C8: registering an already-bound name fails and mutates nothing it
should not: the component `register` returns `False` with the state
entirely unchanged (the manager raises before any attribute write), and the
system `register` returns `False` with the system bindings and every
system's `registered_as` unchanged (its dependency loop runs first but only
touches component state). -/
theorem register_bound_name_fails :
    (∀ (st : CompState) (c : CompClass) (name : String) (auto : Bool),
        (alookup name st.compBind).isSome = true →
        compRegister st c name auto = (false, st)) ∧
    (∀ (cst : CompState) (sst : SysState) (c : SysClass) (name : String),
        (alookup name sst.sysBind).isSome = true →
        (sysRegister cst sst c name).1 = false ∧
        (sysRegister cst sst c name).2.2 = sst) := by
  constructor
  · intro st c name auto h
    obtain ⟨cid, dn, ancs, deps⟩ := c
    unfold compRegister
    simp [h]
  · intro cst sst c name h
    unfold sysRegister
    simp [h]

/-- Witness for C8: `"general"` is bound on both sides; re-registering it
(for a different type) fails and leaves the pre-existing binding and the
previously registered type's name intact. -/
theorem register_bound_name_fails_witness :
    compRegister ⟨[(5, "general")], [("general", 5)]⟩ (.mk 9 "other" [] [])
        "general" true = (false, ⟨[(5, "general")], [("general", 5)]⟩) ∧
    (sysRegister ⟨[], []⟩ ⟨[(3, "general")], [("general", 3)]⟩
        ⟨4, "other", [], []⟩ "general").1 = false ∧
    (sysRegister ⟨[], []⟩ ⟨[(3, "general")], [("general", 3)]⟩
        ⟨4, "other", [], []⟩ "general").2.2 =
      ⟨[(3, "general")], [("general", 3)]⟩ :=
  ⟨register_bound_name_fails.1 _ _ _ _ (by decide),
   (register_bound_name_fails.2 _ _ _ _ (by decide)).1,
   (register_bound_name_fails.2 _ _ _ _ (by decide)).2⟩

/-- C5 counterexample: the system-side `register` has no ancestor
propagation loop at all — registering a system whose ancestor chain
contains the base-subtype identity 7 leaves 7 without the name binding the
claim says both registries give it. -/
theorem system_register_no_propagation_counterexample :
    (sysRegister ⟨[], []⟩ ⟨[], []⟩ ⟨1, "mysystem", [7], []⟩
        "mysystem").2.2.sysAs = [(1, "mysystem")] ∧
    ¬ alookup 7 (sysRegister ⟨[], []⟩ ⟨[], []⟩ ⟨1, "mysystem", [7], []⟩
        "mysystem").2.2.sysAs = some "mysystem" := by
  constructor
  · rfl
  · decide

/-- C5 as amended: auto-propagation is a feature of the component registry
only.  A successful component `register` with `auto_register` binds the
name to the registered type and to every ancestor in its filtered
inheritance chain; the system `register` writes only the registered type's
own binding and never touches any other type's `registered_as`. -/
theorem auto_propagation_component_registry_only :
    (∀ (st : CompState) (cid : Nat) (dn : String) (ancs : List Nat)
        (name : String),
        alookup name st.compBind = none →
        ∀ a, a ∈ ancs ∨ a = cid →
          alookup a (compRegister st (.mk cid dn ancs []) name true).2.compAs =
            some name) ∧
    (∀ (cst : CompState) (sst : SysState) (c : SysClass) (name : String)
        (a : Nat), a ≠ c.id →
        alookup a (sysRegister cst sst c name).2.2.sysAs =
          alookup a sst.sysAs) := by
  constructor
  · intro st cid dn ancs name hfree a ha
    unfold compRegister
    simp only [hfree, Option.isSome_none, Bool.false_eq_true, if_false]
    show alookup a (ancs.foldl (fun acc x => upsert x name acc)
      (upsert cid name st.compAs)) = some name
    apply alookup_foldl_upsert
    rcases ha with hmem | heq
    · left; exact hmem
    · right; subst heq; exact alookup_upsert_self _ _ _
  · intro cst sst c name a ha
    unfold sysRegister
    by_cases h : (alookup name sst.sysBind).isSome = true
    · simp [h]
    · simp only [Bool.not_eq_true] at h
      simp only [h, Bool.false_eq_true, if_false]
      exact alookup_upsert_ne _ _ (Ne.symm ha)

/-- Witness for C5's amended theorem: registering component type 2 with
ancestor 1 as `"flying"` binds both; registering system type 1 leaves
type 7's binding untouched. -/
theorem auto_propagation_component_registry_only_witness :
    alookup 1 (compRegister ⟨[], []⟩ (.mk 2 "moving" [1] []) "flying"
        true).2.compAs = some "flying" ∧
    alookup 7 (sysRegister ⟨[], []⟩ ⟨[], []⟩ ⟨1, "mysystem", [7], []⟩
        "mysystem").2.2.sysAs = alookup 7 ([] : List (Nat × String)) :=
  ⟨auto_propagation_component_registry_only.1 ⟨[], []⟩ 2 "moving" [1] "flying"
      (by decide) 1 (Or.inl (by decide)),
   auto_propagation_component_registry_only.2 ⟨[], []⟩ ⟨[], []⟩
      ⟨1, "mysystem", [7], []⟩ "mysystem" 7 (by decide)⟩

/-- C9: the outer `register`'s boolean result is exactly the freshness of
its own name (so a failure inside a dependency's registration never makes
the outer call fail), and registering a type whose dependency list holds an
unregistered dependency also registers that dependency under its own
default name as a side effect. -/
theorem register_dependency_side_effects :
    (∀ (st : CompState) (c : CompClass) (name : String) (auto : Bool),
        (compRegister st c name auto).1 = (alookup name st.compBind).isNone) ∧
    (∀ (cst : CompState) (sst : SysState) (c : SysClass) (name : String),
        (sysRegister cst sst c name).1 = (alookup name sst.sysBind).isNone) ∧
    (∀ (st : CompState) (cid did : Nat) (cn dn : String)
        (ancs dancs : List Nat) (name : String),
        alookup name st.compBind = none →
        dn ≠ name →
        alookup dn st.compBind = none →
        did ≠ cid →
        did ∉ ancs →
        alookup did st.compAs = none →
        (compRegister st (.mk cid cn ancs [.mk did dn dancs []])
            name true).1 = true ∧
        alookup dn (compRegister st (.mk cid cn ancs [.mk did dn dancs []])
            name true).2.compBind = some did ∧
        alookup did (compRegister st (.mk cid cn ancs [.mk did dn dancs []])
            name true).2.compAs = some dn) := by
  refine ⟨?_, ?_, ?_⟩
  · intro st c name auto
    obtain ⟨cid, dn, ancs, deps⟩ := c
    unfold compRegister
    cases h : alookup name st.compBind <;> simp [h]
  · intro cst sst c name
    unfold sysRegister
    cases h : alookup name sst.sysBind <;> simp [h]
  · intro st cid did cn dn ancs dancs name hfree hdnname hdnfree hdc hdanc hdid
    unfold compRegister
    simp only [hfree, Option.isSome_none, Bool.false_eq_true, if_false]
    have hdid2 : alookup did (ancs.foldl (fun acc x => upsert x name acc)
        (upsert cid name st.compAs)) = none := by
      rw [alookup_foldl_upsert_not_mem _ _ _ hdanc,
        alookup_upsert_ne _ _ (Ne.symm hdc)]
      exact hdid
    have hfalsy : pyFalsy (alookup did (ancs.foldl
        (fun acc x => upsert x name acc) (upsert cid name st.compAs))) =
        true := by
      rw [hdid2]
      rfl
    have hdn2 : alookup dn (upsert name cid st.compBind) = none := by
      rw [alookup_upsert_ne _ _ fun h => hdnname h.symm]
      exact hdnfree
    simp only [compRegisterDeps, CompClass.id, CompClass.defaultName, hfalsy,
      if_true]
    unfold compRegister
    simp only [hdn2, Option.isSome_none, Bool.false_eq_true, if_false,
      compRegisterDeps]
    refine ⟨by trivial, ?_, ?_⟩
    · show alookup dn (upsert dn did (upsert name cid st.compBind)) = some did
      exact alookup_upsert_self _ _ _
    · show alookup did (dancs.foldl (fun acc x => upsert x dn acc)
        (upsert did dn (ancs.foldl (fun acc x => upsert x name acc)
          (upsert cid name st.compAs)))) = some dn
      apply alookup_foldl_upsert
      right
      exact alookup_upsert_self _ _ _

/-- Witness for C9: registering component 2 (dependency: component 6 with
default name `"containable"`, unregistered) as `"equipable"` on an empty
registry returns `True` and also binds `"containable"` to 6. -/
theorem register_dependency_side_effects_witness :
    (compRegister ⟨[], []⟩ (.mk 2 "equipable" [] [.mk 6 "containable" [] []])
        "equipable" true).1 = true ∧
    alookup "containable"
      (compRegister ⟨[], []⟩ (.mk 2 "equipable" [] [.mk 6 "containable" [] []])
        "equipable" true).2.compBind = some 6 ∧
    alookup 6
      (compRegister ⟨[], []⟩ (.mk 2 "equipable" [] [.mk 6 "containable" [] []])
        "equipable" true).2.compAs = some "containable" :=
  register_dependency_side_effects.2.2 ⟨[], []⟩ 2 6 "equipable" "containable"
    [] [] "equipable" (by decide) (by decide) (by decide) (by decide)
    (by decide) (by decide)

end FifeRpg
